import Mathlib

/-!
Verification of the mirascope tool-schema builder, response wrappers and
streaming layer, shallowly embedded from the Python sources.

The first part embeds `src/mirascope/base/tools.py` (the Schema Builder),
the second part embeds `src/mirascope/core/anthropic/call_response_chunk.py`,
and the third part models the Groq streaming/response wrappers, whose code
is exercised by `src/tests/core/groq/test_stream.py` but is not itself
present under `src/`; those definitions are modelled from the spec.
-/

namespace Mirascope

/-- Python truthiness of an optional string: `None` and `""` are falsy.
Used for `fn.__doc__`, docstring descriptions, and `stop_reason` checks. -/
def truthy : Option String → Bool
  | none => false
  | some s => s != ""

/-- Implicit receiver parameter names skipped by `convert_function_to_tool`
(`if parameter.name == "self" or parameter.name == "cls": continue`). -/
def isReceiver (n : String) : Bool :=
  n == "self" || n == "cls"

/-- One parameter of a Python function signature (`inspect.Parameter`):
`annot` is `none` when the annotation is `Parameter.empty` (annotations are
kept as opaque strings), `default` is `none` when the default is
`Parameter.empty`. -/
structure Param where
  name : String
  annot : Option String
  default : Option String
deriving Repr, DecidableEq

/-- One entry of `docstring.params` as produced by `docstring_parser.parse`:
a documented parameter name and its (possibly absent or empty) description. -/
structure DocParam where
  arg_name : String
  description : Option String
deriving Repr, DecidableEq

/-- The parts of a parsed docstring used by `convert_function_to_tool`. -/
structure Docstring where
  short_description : Option String
  long_description : Option String
  params : List DocParam
deriving Repr, DecidableEq

/-- A Python function as seen by reflection: `doc` is `fn.__doc__`, and
`docstring` is the result of `docstring_parser.parse(fn.__doc__)`, treated
as an oracle input alongside the raw docstring. -/
structure PyFunction where
  name : String
  doc : Option String
  docstring : Docstring
  params : List Param
deriving Repr, DecidableEq

/-- The distinct `ValueError`s raised by `convert_function_to_tool`:
missing docstring, missing type annotation, docstring/signature parameter
name mismatch, and missing per-parameter description. -/
inductive SchemaError where
  | noDocstring
  | noAnnot
  | nameMismatch (paramName docName : String)
  | noDescription
deriving Repr, DecidableEq

/-- A pydantic field of the generated tool model: mirrors the `FieldInfo`
built in `convert_function_to_tool` together with the (possibly aliased)
field name used as the `field_definitions` key. -/
structure FieldDef where
  fieldName : String
  annot : String
  default : Option String
  description : Option String
  alias_ : Option String
  validation_alias_ : Option String
  serialization_alias_ : Option String
deriving Repr, DecidableEq

/-- Python `parameter.name.startswith("model_")`, implemented over the
character list so that it reduces definitionally. -/
def startsWithModel (s : String) : Bool :=
  List.isPrefixOf ("model_").data s.data

/-- Builds the `FieldInfo` for one parameter, then applies the reserved
`model_` namespace aliasing: the internal key becomes `aliased_` + name and
`alias`, `validation_alias` and `serialization_alias` are all set to the
original parameter name. -/
def mkField (p : Param) (ann : String) (desc : Option String) : FieldDef :=
  let base : FieldDef :=
    { fieldName := p.name, annot := ann, default := p.default,
      description := if truthy desc then desc else none,
      alias_ := none, validation_alias_ := none, serialization_alias_ := none }
  if startsWithModel p.name then
    { base with
        fieldName := "aliased_" ++ p.name, alias_ := some p.name,
        validation_alias_ := some p.name, serialization_alias_ := some p.name }
  else base

/-- The parameter loop of `convert_function_to_tool`: `i` is the
`enumerate` index over the full signature (receivers included), `dps` is
`docstring.params`.  Receivers are skipped, a missing annotation is an
error, and when `i < len(docstring.params)` the documented name must match
the signature name and carry a truthy description. -/
def convertFields (dps : List DocParam) : List Param → Nat → Except SchemaError (List FieldDef)
  | [], _ => .ok []
  | p :: ps, i =>
    if isReceiver p.name then convertFields dps ps (i + 1)
    else
      match p.annot with
      | none => .error .noAnnot
      | some ann =>
        match dps.get? i with
        | some dp =>
          if dp.arg_name ≠ p.name then .error (.nameMismatch p.name dp.arg_name)
          else if truthy dp.description = false then .error .noDescription
          else (convertFields dps ps (i + 1)).map (mkField p ann dp.description :: ·)
        | none => (convertFields dps ps (i + 1)).map (mkField p ann none :: ·)

/-- Python `str.title()` on one character list: the first alphabetic
character of each alphabetic run is uppercased, later ones lowercased. -/
def pyTitleAux : Bool → List Char → List Char
  | _, [] => []
  | prevCased, c :: cs =>
    if c.isAlpha then (if prevCased then c.toLower else c.toUpper) :: pyTitleAux true cs
    else c :: pyTitleAux false cs

/-- Python `str.title()`. -/
def pyTitle (s : String) : String :=
  ⟨pyTitleAux false s.data⟩

/-- Python `"x_y".split("_")` on the underscore separator, over the
character list so that it reduces definitionally. -/
def splitUnderscoreAux : List Char → List Char → List String
  | [], acc => [⟨acc.reverse⟩]
  | c :: cs, acc =>
    if c == '_' then (⟨acc.reverse⟩ : String) :: splitUnderscoreAux cs []
    else splitUnderscoreAux cs (c :: acc)

/-- The generated tool class name:
`"".join(word.title() for word in fn.__name__.split("_"))`. -/
def pyToolName (n : String) : String :=
  String.join ((splitUnderscoreAux n.data []).map pyTitle)

/-- The tool description assembled from the parsed docstring: the short
description when truthy, and the long description appended after a blank
line when truthy. -/
def composeDoc (d : Docstring) : String :=
  let doc := if truthy d.short_description then d.short_description.getD ("") else ""
  if truthy d.long_description then doc ++ "\n\n" ++ d.long_description.getD ("") else doc

/-- The tool type produced by `create_model` in `convert_function_to_tool`:
class name, docstring, and the ordered field definitions. -/
structure ToolDef where
  name : String
  doc : String
  fields : List FieldDef
deriving Repr, DecidableEq

/-- `convert_function_to_tool` from `src/mirascope/base/tools.py`: errors
when `fn.__doc__` is falsy, otherwise runs the parameter loop and builds
the tool model. -/
def convert_function_to_tool (fn : PyFunction) : Except SchemaError ToolDef :=
  if truthy fn.doc = false then .error .noDocstring
  else
    (convertFields fn.docstring.params fn.params 0).map fun fields =>
      { name := pyToolName fn.name, doc := composeDoc fn.docstring, fields := fields }

/-- Models pydantic v2 json-schema naming: `model_json_schema` defaults to
`by_alias=True` in validation mode, so a field is exposed under its
validation alias when one is set, else under its field name. -/
def schemaKey (f : FieldDef) : String :=
  f.validation_alias_.getD f.fieldName

/-- Models pydantic v2 validation naming: when a `validation_alias` is set,
input data is read from that key; otherwise from the field name. -/
def validationKey (f : FieldDef) : String :=
  f.validation_alias_.getD f.fieldName

/-- Models pydantic v2 serialization naming: `model_dump(by_alias=True)`
emits the serialization alias when set, plain `model_dump()` emits the
internal field name. -/
def dumpKey (byAlias : Bool) (f : FieldDef) : String :=
  if byAlias then f.serialization_alias_.getD f.fieldName else f.fieldName

/-- Opaque argument value carried through validation and serialization. -/
abbrev PyValue := String

/-- Models pydantic v2 model validation of keyword arguments: each field is
populated from the input entry keyed by its validation alias (or field
name when no alias is set). -/
def model_validate (fields : List FieldDef) (args : List (String × PyValue)) : List (String × Option PyValue) :=
  fields.map fun f => (f.fieldName, args.lookup (validationKey f))

/-- Models pydantic v2 `model_dump` on a populated instance: excluded
fields are dropped and each remaining value is emitted under `dumpKey`. -/
def model_dump (byAlias : Bool) (exclude : List String) (inst : List (FieldDef × PyValue)) : List (String × PyValue) :=
  (inst.filter fun fv => !(exclude.contains fv.1.fieldName)).map fun fv => (dumpKey byAlias fv.1, fv.2)

namespace BaseTool

/-- `BaseTool.args` from `src/mirascope/base/tools.py`:
`self.model_dump(exclude={"tool_call"})` — note `by_alias` is left at its
default `False`. -/
def args (inst : List (FieldDef × PyValue)) : List (String × PyValue) :=
  model_dump false [("tool_call" : String)] inst

end BaseTool

/-- Opaque JSON sub-schema: `tool_schema` copies property and definition
bodies verbatim, so their contents never matter. -/
abbrev JsonSchema := String

/-- The parts of `cls.model_json_schema()` read by `BaseTool.tool_schema`:
title, optional description, ordered properties, and the optional
`required` and `$defs` entries. -/
structure ModelSchema where
  title : String
  description : Option String
  properties : List (String × JsonSchema)
  required : Option (List String)
  defs : Option (List (String × JsonSchema))
deriving Repr, DecidableEq

/-- The `parameters` object assembled by `BaseTool.tool_schema`. -/
structure ToolSchemaParams where
  type : String
  properties : List (String × JsonSchema)
  required : List String
  defs : List (String × JsonSchema)
deriving Repr, DecidableEq

/-- The `fn` dictionary returned by `BaseTool.tool_schema`: `parameters`
is present only when the model schema's properties are non-empty. -/
structure ToolSchemaFn where
  name : String
  description : String
  parameters : Option ToolSchemaParams
deriving Repr, DecidableEq

namespace BaseTool

/-- `BaseTool.tool_schema` from `src/mirascope/base/tools.py`: requires a
description, strips the `tool_call` bookkeeping property from properties
and required, and drops the `ChatCompletionMessageToolCall` and `Function`
entries from `$defs`. -/
def tool_schema (ms : ModelSchema) : Except String ToolSchemaFn :=
  match ms.description with
  | none => .error ("Tool must have a docstring description.")
  | some desc =>
    if ms.properties.isEmpty then
      .ok { name := ms.title, description := desc, parameters := none }
    else
      .ok { name := ms.title, description := desc,
            parameters := some {
              type := "object",
              properties := ms.properties.filter fun kv => kv.1 != "tool_call",
              required :=
                match ms.required with
                | some req => req.filter fun p => p != "tool_call"
                | none => [],
              defs :=
                match ms.defs with
                | some ds => ds.filter fun kv =>
                    kv.1 != "ChatCompletionMessageToolCall" && kv.1 != "Function"
                | none => [] } }

end BaseTool

/-- Whether an `Except` result is an error. -/
def isErr {ε α : Type} : Except ε α → Bool
  | .error _ => true
  | .ok _ => false

/-- The docstring/signature positional alignment condition actually
enforced by the loop: at every index where both a signature parameter and
a documented parameter exist, either the parameter is a receiver or the
documented name matches and its description is truthy. -/
def docAligned (fn : PyFunction) : Bool :=
  (fn.params.zip fn.docstring.params).all fun pd =>
    isReceiver pd.1.name || (pd.2.arg_name == pd.1.name && truthy pd.2.description)

/-- The external parameter names exposed by the generated tool's schema,
in order, when conversion succeeds. -/
def schemaParamNames (fn : PyFunction) : Option (List String) :=
  (convert_function_to_tool fn).toOption.map fun td => td.fields.map schemaKey


/-- The positional docstring/signature alignment relation enforced by the
loop, starting at docstring index `i`: wherever a signature parameter and
a documented parameter share an index, either the parameter is a receiver
or the documented name matches and its description is truthy. -/
def AlignedFrom (dps : List DocParam) (ps : List Param) (i : Nat) : Prop :=
  ∀ j p dp, ps.get? j = some p → isReceiver p.name = false →
    dps.get? (i + j) = some dp →
      dp.arg_name = p.name ∧ truthy dp.description = true

/-- Relation between a signature parameter and the pydantic field generated
for it: the reserved `model_` namespace aliasing renames the internal key
and records the original name in all three alias slots. -/
def fieldRel (p : Param) (f : FieldDef) : Prop :=
  if startsWithModel p.name then
    f.fieldName = "aliased_" ++ p.name ∧ f.alias_ = some p.name ∧
      f.validation_alias_ = some p.name ∧ f.serialization_alias_ = some p.name
  else
    f.fieldName = p.name ∧ f.alias_ = none ∧
      f.validation_alias_ = none ∧ f.serialization_alias_ = none

namespace Anthropic

/-- `anthropic.types.Usage`: full usage, carried by a message-start
event's message. -/
structure Usage where
  input_tokens : Nat
  output_tokens : Nat
deriving Repr, DecidableEq

/-- `anthropic.types.MessageDeltaUsage`: only output tokens, carried by a
raw message-delta event. -/
structure MessageDeltaUsage where
  output_tokens : Nat
deriving Repr, DecidableEq

/-- The message carried by a `RawMessageStartEvent`.  `stop_reason` is an
optional string (the SDK's literal values are all non-empty). -/
structure Message where
  id : String
  model : String
  stop_reason : Option String
  usage : Usage
deriving Repr, DecidableEq

/-- The delta payload of a `RawContentBlockDeltaEvent`: a text delta or an
input-json delta (tool-call argument fragment). -/
inductive BlockDelta where
  | textDelta (text : String)
  | inputJson (fragment : String)
deriving Repr, DecidableEq

/-- `anthropic.types.MessageStreamEvent`, the union of raw streaming
events.  `MessageStartEvent`/`MessageDeltaEvent` are SDK aliases of the
raw variants, so a single constructor models each. -/
inductive MessageStreamEvent where
  | messageStart (message : Message)
  | contentBlockStart
  | contentBlockDelta (delta : BlockDelta)
  | contentBlockStop
  | messageDelta (stop_reason : Option String) (usage : MessageDeltaUsage)
  | messageStop
deriving Repr, DecidableEq

/-- The union type of the `usage` property: `Usage | MessageDeltaUsage`. -/
inductive ChunkUsage where
  | full (u : Usage)
  | delta (u : MessageDeltaUsage)
deriving Repr, DecidableEq

namespace AnthropicCallResponseChunk

/-- `AnthropicCallResponseChunk.content`: the delta text when the chunk is
a content-block delta whose delta is a text delta, else `""`. -/
def content : MessageStreamEvent → String
  | .contentBlockDelta (.textDelta t) => t
  | _ => ""

/-- `AnthropicCallResponseChunk.finish_reasons`: `[str(stop_reason)]` when
the chunk is a raw message-start event whose message has a truthy
`stop_reason`, else `None`. -/
def finish_reasons : MessageStreamEvent → Option (List String)
  | .messageStart m =>
      if truthy m.stop_reason then some [m.stop_reason.getD ("")] else none
  | _ => none

/-- `AnthropicCallResponseChunk.model`. -/
def model : MessageStreamEvent → Option String
  | .messageStart m => some m.model
  | _ => none

/-- `AnthropicCallResponseChunk.id`. -/
def id : MessageStreamEvent → Option String
  | .messageStart m => some m.id
  | _ => none

/-- `AnthropicCallResponseChunk.usage`: the message's usage on a
message-start event, the event usage on a raw message-delta event, else
`None`. -/
def usage : MessageStreamEvent → Option ChunkUsage
  | .messageStart m => some (.full m.usage)
  | .messageDelta _ u => some (.delta u)
  | _ => none

/-- `AnthropicCallResponseChunk.input_tokens`: present only when the usage
object has an `input_tokens` attribute (full `Usage` only). -/
def input_tokens (e : MessageStreamEvent) : Option Nat :=
  match usage e with
  | some (.full u) => some u.input_tokens
  | _ => none

/-- `AnthropicCallResponseChunk.output_tokens`. -/
def output_tokens (e : MessageStreamEvent) : Option Nat :=
  match usage e with
  | some (.full u) => some u.output_tokens
  | some (.delta u) => some u.output_tokens
  | none => none

end AnthropicCallResponseChunk

end Anthropic

namespace Groq

/-- `groq.types.CompletionUsage`, restricted to the token counts used by
the wrappers. -/
structure CompletionUsage where
  prompt_tokens : Nat
  completion_tokens : Nat
deriving Repr, DecidableEq

/-- A resolved tool call (`ChatCompletionMessageToolCall` with its
function name and JSON argument string). -/
structure ToolCall where
  id : String
  name : String
  arguments : String
deriving Repr, DecidableEq

/-- Modelled from the spec: one streamed chunk as seen by the stream
accumulator (the delta content, optional tool-call fragments, optional
finish reason and optional usage of a `ChatCompletionChunk` choice).  The
Groq chunk/stream classes themselves are not under `src/`. -/
structure StreamChunk where
  id : String
  content : Option String
  tool_calls : Option (List ToolCall)
  finish_reason : Option String
  usage : Option CompletionUsage
deriving Repr, DecidableEq

/-- `groq.types.chat.ChatCompletionMessage`: an assistant message. -/
structure Message where
  role : String
  content : Option String
  tool_calls : Option (List ToolCall)
deriving Repr, DecidableEq

/-- One choice of a non-streamed `ChatCompletion`. -/
structure Choice where
  finish_reason : Option String
  message : Message
deriving Repr, DecidableEq

/-- `groq.types.chat.ChatCompletion`: the non-streamed raw response. -/
structure ChatCompletion where
  id : String
  model : String
  choices : List Choice
  usage : Option CompletionUsage
deriving Repr, DecidableEq

/-- Modelled from the spec: the static per-model price table, an external
collaborator keyed by model name with per-input-token and per-output-token
prices in dollars.  The entry reproduces the cost asserted by
`test_groq_stream` (1 input + 1 output token of `llama3-70b-8192` cost
`1.38e-6`). -/
def groqPriceTable : List (String × ℚ × ℚ) :=
  [("llama3-70b-8192", ((59 : ℚ) / 100000000, (79 : ℚ) / 100000000)),
   ("llama3-8b-8192", ((5 : ℚ) / 100000000, (8 : ℚ) / 100000000))]

/-- Modelled from the spec: `calculate_cost` — `None` when usage is absent
or the model has no price-table entry, otherwise input and output token
counts times their per-token prices.  The per-provider cost calculators
are not under `src/`. -/
def calculate_cost (table : List (String × ℚ × ℚ)) (usage : Option CompletionUsage) (model : String) : Option ℚ :=
  match usage with
  | none => none
  | some u =>
    match table.lookup model with
    | none => none
    | some pr => some (u.prompt_tokens * pr.1 + u.completion_tokens * pr.2)

/-- The ten normalized attributes compared by
`test_construct_call_response`. -/
structure CallResponseFields where
  provider : String
  content : String
  finish_reasons : Option (List String)
  model : String
  id : String
  usage : Option CompletionUsage
  input_tokens : Option Nat
  output_tokens : Option Nat
  cost : Option ℚ
  message_param : Message
deriving Repr, DecidableEq

namespace CallResponse

/-- Modelled from the spec: `GroqCallResponse._provider`. -/
def provider : String := "groq"

/-- Modelled from the spec: best-effort extraction of the primary text
payload, empty string if none. -/
def content (r : ChatCompletion) : String :=
  ((r.choices.head?).bind fun c => c.message.content).getD ("")

/-- Modelled from the spec: the normalized finish reasons of all choices,
`None` when the provider gives none. -/
def finish_reasons (r : ChatCompletion) : Option (List String) :=
  let l := r.choices.filterMap fun c => c.finish_reason
  if l.isEmpty then none else some l

/-- Modelled from the spec: usage as reported by the raw response. -/
def usage (r : ChatCompletion) : Option CompletionUsage :=
  r.usage

/-- Modelled from the spec: input token count, `None` without usage. -/
def input_tokens (r : ChatCompletion) : Option Nat :=
  r.usage.map fun u => u.prompt_tokens

/-- Modelled from the spec: output token count, `None` without usage. -/
def output_tokens (r : ChatCompletion) : Option Nat :=
  r.usage.map fun u => u.completion_tokens

/-- Modelled from the spec: cost from the price table and usage. -/
def cost (table : List (String × ℚ × ℚ)) (r : ChatCompletion) : Option ℚ :=
  calculate_cost table r.usage r.model

/-- Modelled from the spec: the assistant-turn message of the response,
suitable for appending to the conversation history. -/
def message_param (r : ChatCompletion) : Message :=
  ((r.choices.head?).map fun c => c.message).getD
    { role := "assistant", content := none, tool_calls := none }

/-- All ten normalized attributes of a `CallResponse` built on a raw
response. -/
def fields (table : List (String × ℚ × ℚ)) (r : ChatCompletion) : CallResponseFields :=
  { provider := provider, content := content r,
    finish_reasons := finish_reasons r, model := r.model, id := r.id,
    usage := usage r, input_tokens := input_tokens r,
    output_tokens := output_tokens r, cost := cost table r,
    message_param := message_param r }

end CallResponse

/-- Modelled from the spec: the accumulator state of a `GroqStream` —
running content, latest non-null usage, collected tool calls, latest
finish reason, plus the lifecycle flags (`started` once a chunk has been
pulled, `finished` once the source is exhausted). -/
structure StreamState where
  started : Bool
  finished : Bool
  id : Option String
  model : String
  content : String
  usage : Option CompletionUsage
  tool_calls : List ToolCall
  finish_reason : Option String
deriving Repr, DecidableEq

/-- Modelled from the spec: a freshly constructed stream over which no
chunk has been pulled. -/
def mkStream (model : String) : StreamState :=
  { started := false, finished := false, id := none, model := model,
    content := "", usage := none, tool_calls := [], finish_reason := none }

/-- Modelled from the spec: consuming one chunk — content is appended,
usage and finish reason are overwritten by the latest non-null value, the
first chunk id is kept, tool calls are collected in order. -/
def step (st : StreamState) (c : StreamChunk) : StreamState :=
  { st with
      started := true,
      id := st.id.or (some c.id),
      content := st.content ++ c.content.getD (""),
      usage := c.usage.or st.usage,
      tool_calls := st.tool_calls ++ c.tool_calls.getD [],
      finish_reason := c.finish_reason.or st.finish_reason }

/-- Modelled from the spec: the state of a stream whose chunk sequence has
been fully consumed. -/
def exhaust (model : String) (chunks : List StreamChunk) : StreamState :=
  { chunks.foldl step (mkStream model) with finished := true }

/-- The concatenation of all delta contents of a chunk sequence. -/
def contentOf : List StreamChunk → String
  | [] => ""
  | c :: cs => c.content.getD ("") ++ contentOf cs

/-- The latest non-null usage of a chunk sequence. -/
def usageOf : List StreamChunk → Option CompletionUsage
  | [] => none
  | c :: cs => (usageOf cs).or c.usage

/-- The latest non-null finish reason of a chunk sequence. -/
def finishOf : List StreamChunk → Option String
  | [] => none
  | c :: cs => (finishOf cs).or c.finish_reason

/-- All tool calls of a chunk sequence, in order. -/
def toolCallsOf : List StreamChunk → List ToolCall
  | [] => []
  | c :: cs => c.tool_calls.getD [] ++ toolCallsOf cs

/-- The id of the first chunk of a chunk sequence. -/
def idOf : List StreamChunk → Option String
  | [] => none
  | c :: _ => some c.id

namespace StreamState

/-- Modelled from the spec: `stream.cost` is undefined (`None`) until
iteration completes, then the price-table cost of the accumulated usage. -/
def cost (table : List (String × ℚ × ℚ)) (st : StreamState) : Option ℚ :=
  if st.finished then calculate_cost table st.usage st.model else none

/-- Modelled from the spec: `stream.message_param` is undefined (`None`)
until iteration completes, then the assistant-turn message assembled from
the accumulated content and tool calls (`None` tool calls when none were
seen). -/
def message_param (st : StreamState) : Option Message :=
  if st.finished then
    some { role := "assistant", content := some st.content,
           tool_calls := if st.tool_calls.isEmpty then none else some st.tool_calls }
  else none

/-- Modelled from the spec: `construct_call_response` replays the
accumulated content, usage and tool-call list into the non-streamed
`ChatCompletion` shape; it is an error when no chunk was ever pulled. -/
def construct_call_response (st : StreamState) : Except String ChatCompletion :=
  if st.started then
    .ok { id := st.id.getD (""), model := st.model, usage := st.usage,
          choices := [{ finish_reason := st.finish_reason,
                        message := { role := "assistant",
                                     content := some st.content,
                                     tool_calls := if st.tool_calls.isEmpty then none
                                                   else some st.tool_calls } }] }
  else .error ("No stream response, check if the stream has been consumed.")

end StreamState

/-- The equivalent non-streamed raw provider response for a consumed chunk
sequence, following the spec's words: a `ChatCompletion` carrying the same
concatenated content, latest finish reason, latest usage and collected
tool calls as the stream accumulated. -/
def equivalentNonStreamedResponse (model : String) (chunks : List StreamChunk) : ChatCompletion :=
  { id := (idOf chunks).getD (""), model := model, usage := usageOf chunks,
    choices := [{ finish_reason := finishOf chunks,
                  message := { role := "assistant",
                               content := some (contentOf chunks),
                               tool_calls := if (toolCallsOf chunks).isEmpty then none
                                             else some (toolCallsOf chunks) } }] }

end Groq

/-- A plain fully documented function (the shape of `format_book` in the
stream tests). -/
def exPlainFn : PyFunction :=
  { name := "format_book", doc := some ("Format a book."),
    docstring :=
      { short_description := some ("Format a book."), long_description := none,
        params := [{ arg_name := "title", description := some ("The title.") },
                   { arg_name := "author", description := some ("The author.") }] },
    params := [{ name := "title", annot := some ("str"), default := none },
               { name := "author", annot := some ("str"), default := none }] }

/-- The same function written as a method: the signature starts with the
receiver `self`, and the docstring documents the two real parameters. -/
def exMethodFn : PyFunction :=
  { name := "format_book", doc := some ("Format a book."),
    docstring :=
      { short_description := some ("Format a book."), long_description := none,
        params := [{ arg_name := "title", description := some ("The title.") },
                   { arg_name := "author", description := some ("The author.") }] },
    params := [{ name := "self", annot := none, default := none },
               { name := "title", annot := some ("str"), default := none },
               { name := "author", annot := some ("str"), default := none }] }

/-- A function whose docstring documents a first parameter under the wrong
name. -/
def exMisalignedFn : PyFunction :=
  { name := "fmt", doc := some ("Fmt."),
    docstring :=
      { short_description := some ("Fmt."), long_description := none,
        params := [{ arg_name := "wrong", description := some ("A wrong.") }] },
    params := [{ name := "a", annot := some ("int"), default := none }] }

/-- A function whose docstring documents a second parameter `b` with an
empty description although the signature has only one parameter. -/
def exExtraDocFn : PyFunction :=
  { name := "fmt", doc := some ("Fmt."),
    docstring :=
      { short_description := some ("Fmt."), long_description := none,
        params := [{ arg_name := "a", description := some ("An a.") },
                   { arg_name := "b", description := some ("") }] },
    params := [{ name := "a", annot := some ("int"), default := none }] }

/-- The tool type generated for `exExtraDocFn`. -/
def exExtraDocTd : ToolDef :=
  { name := "Fmt", doc := "Fmt.",
    fields := [{ fieldName := "a", annot := "int", default := none,
                 description := some ("An a."), alias_ := none,
                 validation_alias_ := none, serialization_alias_ := none }] }

/-- A function without a docstring. -/
def exNoDocFn : PyFunction :=
  { name := "f", doc := none,
    docstring := { short_description := none, long_description := none, params := [] },
    params := [{ name := "a", annot := some ("int"), default := none }] }

/-- A model json schema without a description. -/
def exNoDescMs : ModelSchema :=
  { title := "T", description := none, properties := [("x", "xs")],
    required := none, defs := none }

/-- A function with a parameter in the reserved `model_` namespace. -/
def exAliasFn : PyFunction :=
  { name := "store_model", doc := some ("Store."),
    docstring :=
      { short_description := some ("Store."), long_description := none,
        params := [{ arg_name := "model_title", description := some ("The title.") }] },
    params := [{ name := "model_title", annot := some ("str"), default := none }] }

/-- The aliased field generated for `exAliasFn`. -/
def exAliasField : FieldDef :=
  { fieldName := "aliased_model_title", annot := "str", default := none,
    description := some ("The title."), alias_ := some ("model_title"),
    validation_alias_ := some ("model_title"),
    serialization_alias_ := some ("model_title") }

/-- The tool type generated for `exAliasFn`. -/
def exAliasTd : ToolDef :=
  { name := "StoreModel", doc := "Store.", fields := [exAliasField] }

/-- A model json schema carrying the `tool_call` bookkeeping property and
the internal tool-call `$defs` entries next to user content. -/
def exToolMs : ModelSchema :=
  { title := "FormatBook", description := some ("Formats a book."),
    properties := [("tool_call", "tc"), ("title", "ts")],
    required := some ["tool_call", "title"],
    defs := some [("ChatCompletionMessageToolCall", "d1"), ("Function", "d2"),
                  ("BookInfo", "d3")] }

/-- The parameters object emitted for `exToolMs`. -/
def exToolPs : ToolSchemaParams :=
  { type := "object", properties := [("title", "ts")], required := ["title"],
    defs := [("BookInfo", "d3")] }

/-- The tool schema emitted for `exToolMs`. -/
def exToolTs : ToolSchemaFn :=
  { name := "FormatBook", description := "Formats a book.",
    parameters := some exToolPs }

/-- The two-chunk stream of `test_construct_call_response` in
`src/tests/core/groq/test_stream.py`: a content chunk, then a chunk with a
resolved tool call, a `stop` finish reason and usage. -/
def exChunks : List Groq.StreamChunk :=
  [{ id := "id", content := some ("content"), tool_calls := none,
     finish_reason := none, usage := none },
   { id := "id", content := none,
     tool_calls := some [{ id := "id", name := "FormatBook",
                           arguments := "\x7b\x22title\x22: \x22The Name of the Wind\x22\x7d" }],
     finish_reason := some ("stop"),
     usage := some { prompt_tokens := 1, completion_tokens := 1 } }]

end Mirascope

namespace Mirascope

/-- An `Except.map` yields `ok b` exactly when the argument was `ok a`
with `f a = b`. -/
theorem exceptMap_eq_ok {ε α β : Type} (f : α → β) (e : Except ε α) (b : β) :
    e.map f = .ok b ↔ ∃ a, e = .ok a ∧ f a = b := by
  cases e <;> simp [Except.map]

/-- Mapping the success value does not change whether a result is an
error. -/
theorem isErr_map {ε α β : Type} (f : α → β) (e : Except ε α) :
    isErr (e.map f) = isErr e := by
  cases e <;> rfl

/-- A result is not an error exactly when it is `ok`. -/
theorem isErr_false_iff {ε α : Type} (e : Except ε α) :
    isErr e = false ↔ ∃ a, e = .ok a := by
  cases e <;> simp [isErr]

/-- A boolean `all` over a `zip` is an index-wise condition on the two
lists. -/
theorem zip_all_iff_get {α β : Type} (f : α × β → Bool) :
    ∀ (l₁ : List α) (l₂ : List β),
      ((l₁.zip l₂).all f = true) ↔
        ∀ j a b, l₁.get? j = some a → l₂.get? j = some b → f (a, b) = true := by
  intro l₁
  induction l₁ with
  | nil =>
    intro l₂
    constructor
    · intro _ j a b ha _
      simp at ha
    · intro _
      rfl
  | cons x xs ih =>
    intro l₂
    cases l₂ with
    | nil =>
      constructor
      · intro _ j a b _ hb
        simp at hb
      · intro _
        rfl
    | cons y ys =>
      simp only [List.zip_cons_cons, List.all_cons, Bool.and_eq_true, ih ys]
      constructor
      · rintro ⟨hxy, h⟩ j a b ha hb
        cases j with
        | zero =>
          simp only [List.get?] at ha hb
          cases ha
          cases hb
          exact hxy
        | succ j => exact h j a b ha hb
      · intro h
        exact ⟨h 0 x y rfl rfl, fun j a b ha hb => h (j + 1) a b ha hb⟩

/-- Pointwise related lists have equal images under maps that agree on
related elements. -/
theorem forall2_map_eq {α β γ : Type} {R : α → β → Prop} {g : α → γ} {h : β → γ}
    {l₁ : List α} {l₂ : List β} (hf : List.Forall₂ R l₁ l₂)
    (hgh : ∀ a b, R a b → g a = h b) : l₁.map g = l₂.map h := by
  induction hf with
  | nil => rfl
  | cons hr _ ih => simp [List.map_cons, hgh _ _ hr, ih]

/-- Pointwise related lists relate their entries at every index. -/
theorem forall2_get? {α β : Type} {R : α → β → Prop} :
    ∀ {l₁ : List α} {l₂ : List β}, List.Forall₂ R l₁ l₂ →
      ∀ {i : Nat} {a : α}, l₁.get? i = some a → ∃ b, l₂.get? i = some b ∧ R a b := by
  intro l₁ l₂ hf
  induction hf with
  | nil =>
    intro i a h
    simp at h
  | cons hr _ ih =>
    intro i a h
    cases i with
    | zero =>
      simp only [List.get?] at h
      cases h
      exact ⟨_, rfl, hr⟩
    | succ i => exact ih h

/-- The field generated for a parameter satisfies the parameter/field
relation. -/
theorem fieldRel_mkField (p : Param) (ann : String) (desc : Option String) :
    fieldRel p (mkField p ann desc) := by
  unfold fieldRel mkField
  by_cases h : startsWithModel p.name = true
  · simp [h]
  · simp [h]

/-- The schema exposes every generated field under the original parameter
name. -/
theorem schemaKey_of_fieldRel {p : Param} {f : FieldDef} (h : fieldRel p f) :
    schemaKey f = p.name := by
  unfold fieldRel at h
  unfold schemaKey
  split at h
  · obtain ⟨_, _, hv, _⟩ := h
    simp [hv]
  · obtain ⟨hn, _, hv, _⟩ := h
    simp [hv, hn]

end Mirascope

namespace Mirascope

/-- Whenever the parameter loop succeeds, the produced fields are
pointwise generated from the non-receiver signature parameters, in
order. -/
theorem convertFields_forall2 (dps : List DocParam) :
    ∀ (ps : List Param) (i : Nat) (fields : List FieldDef),
      convertFields dps ps i = .ok fields →
      List.Forall₂ fieldRel (ps.filter fun p => !isReceiver p.name) fields := by
  intro ps
  induction ps with
  | nil =>
    intro i fields h
    simp only [convertFields] at h
    cases h
    simp only [List.filter_nil]
    exact List.Forall₂.nil
  | cons p ps ih =>
    intro i fields h
    simp only [convertFields] at h
    cases hr : isReceiver p.name with
    | true =>
      rw [hr] at h
      simp only [if_true] at h
      have htail := ih (i + 1) fields h
      simpa [List.filter_cons, hr] using htail
    | false =>
      rw [hr] at h
      simp only [Bool.false_eq_true, if_false] at h
      cases hann : p.annot with
      | none =>
        rw [hann] at h
        exact absurd h (by simp)
      | some ann =>
        rw [hann] at h
        simp only at h
        cases hdp : dps.get? i with
        | some dp =>
          rw [hdp] at h
          simp only at h
          by_cases hname : dp.arg_name = p.name
          · rw [if_neg (fun hne => hne hname)] at h
            by_cases hdesc : truthy dp.description = false
            · rw [if_pos hdesc] at h
              exact absurd h (by simp)
            · rw [if_neg hdesc] at h
              rw [exceptMap_eq_ok] at h
              obtain ⟨rest, hrest, hcons⟩ := h
              subst hcons
              simp only [List.filter_cons, hr, Bool.not_false, if_true]
              exact List.Forall₂.cons (fieldRel_mkField p ann dp.description)
                (ih (i + 1) rest hrest)
          · rw [if_pos hname] at h
            exact absurd h (by simp)
        | none =>
          rw [hdp] at h
          simp only at h
          rw [exceptMap_eq_ok] at h
          obtain ⟨rest, hrest, hcons⟩ := h
          subst hcons
          simp only [List.filter_cons, hr, Bool.not_false, if_true]
          exact List.Forall₂.cons (fieldRel_mkField p ann none)
            (ih (i + 1) rest hrest)

end Mirascope

namespace Mirascope

/-- The parameter loop succeeds exactly when, under the given docstring
offset, every index shared by a non-receiver signature parameter and a
documented parameter has matching names and a truthy description
(assuming annotations are present, the only other error source). -/
theorem convertFields_ok_iff (dps : List DocParam) :
    ∀ (ps : List Param) (i : Nat),
      (∀ p ∈ ps, isReceiver p.name = false → p.annot.isSome = true) →
      (isErr (convertFields dps ps i) = false ↔ AlignedFrom dps ps i) := by
  intro ps
  induction ps with
  | nil =>
    intro i _
    constructor
    · intro _ j p dp hj
      simp at hj
    · intro _
      rfl
  | cons p ps ih =>
    intro i hann
    have hanntail : ∀ q ∈ ps, isReceiver q.name = false → q.annot.isSome = true :=
      fun q hq => hann q (List.mem_cons_of_mem p hq)
    simp only [convertFields]
    cases hr : isReceiver p.name with
    | true =>
      rw [if_pos rfl]
      rw [ih (i + 1) hanntail]
      constructor
      · intro h j q dq hq hqr hdq
        cases j with
        | zero =>
          simp only [List.get?] at hq
          cases hq
          rw [hr] at hqr
          simp at hqr
        | succ j =>
          apply h j q dq hq hqr
          rw [show i + 1 + j = i + (j + 1) by omega]
          exact hdq
      · intro h j q dq hq hqr hdq
        apply h (j + 1) q dq hq hqr
        rw [show i + (j + 1) = i + 1 + j by omega]
        exact hdq
    | false =>
      rw [if_neg Bool.false_ne_true]
      have hpann := hann p (List.mem_cons_self p ps) hr
      cases hannv : p.annot with
      | none =>
        rw [hannv] at hpann
        simp at hpann
      | some ann =>
        simp only [hannv]
        cases hdp : dps.get? i with
        | none =>
          simp only [hdp]
          rw [isErr_map, ih (i + 1) hanntail]
          constructor
          · intro h j q dq hq hqr hdq
            cases j with
            | zero =>
              simp only [List.get?] at hq
              cases hq
              rw [Nat.add_zero, hdp] at hdq
              simp at hdq
            | succ j =>
              apply h j q dq hq hqr
              rw [show i + 1 + j = i + (j + 1) by omega]
              exact hdq
          · intro h j q dq hq hqr hdq
            apply h (j + 1) q dq hq hqr
            rw [show i + (j + 1) = i + 1 + j by omega]
            exact hdq
        | some dp =>
          simp only [hdp]
          by_cases hname : dp.arg_name = p.name
          · rw [if_neg (fun hne => hne hname)]
            by_cases hdesc : truthy dp.description = false
            · rw [if_pos hdesc]
              constructor
              · intro hfalse
                simp [isErr] at hfalse
              · intro h
                exfalso
                have h0 := h 0 p dp rfl hr (by rw [Nat.add_zero]; exact hdp)
                rw [h0.2] at hdesc
                cases hdesc
            · have hdesc' : truthy dp.description = true := by
                revert hdesc
                cases truthy dp.description <;> simp
              rw [if_neg hdesc]
              rw [isErr_map, ih (i + 1) hanntail]
              constructor
              · intro h j q dq hq hqr hdq
                cases j with
                | zero =>
                  simp only [List.get?] at hq
                  cases hq
                  rw [Nat.add_zero, hdp] at hdq
                  cases hdq
                  exact ⟨hname, hdesc'⟩
                | succ j =>
                  apply h j q dq hq hqr
                  rw [show i + 1 + j = i + (j + 1) by omega]
                  exact hdq
              · intro h j q dq hq hqr hdq
                apply h (j + 1) q dq hq hqr
                rw [show i + (j + 1) = i + 1 + j by omega]
                exact hdq
          · rw [if_pos hname]
            constructor
            · intro hfalse
              simp [isErr] at hfalse
            · intro h
              exfalso
              have h0 := h 0 p dp rfl hr (by rw [Nat.add_zero]; exact hdp)
              exact hname h0.1

/-- `docAligned` is the boolean form of the positional alignment relation
at offset zero. -/
theorem docAligned_iff (fn : PyFunction) :
    docAligned fn = true ↔ AlignedFrom fn.docstring.params fn.params 0 := by
  unfold docAligned AlignedFrom
  rw [zip_all_iff_get]
  constructor
  · intro h j p dp hp hr hdp
    rw [Nat.zero_add] at hdp
    have := h j p dp hp hdp
    simp only [hr, Bool.false_or, Bool.and_eq_true, beq_iff_eq] at this
    exact ⟨this.1, this.2⟩
  · intro h j p dp hp hdp
    cases hr : isReceiver p.name with
    | true => simp [hr]
    | false =>
      have := h j p dp hp hr (by rw [Nat.zero_add]; exact hdp)
      simp [hr, this.1, this.2]

end Mirascope

namespace Mirascope

/-- C3 (amended): whenever `convert_function_to_tool` produces a tool, the
schema's external parameter names equal the signature's parameter names in
order with receiver parameters excluded; and for every plain function (no
receiver parameters) with a truthy docstring, fully annotated parameters,
and a docstring documenting each parameter in signature order with truthy
descriptions, conversion succeeds and the schema lists exactly the
signature's parameter names in order.  (The original claim also asserted
success for methods whose docstring documents only the non-receiver
parameters; the loop's `enumerate` index is not adjusted for skipped
receivers, so such methods fail — see the counterexample.) -/
theorem param_order_matches_signature :
    (∀ fn td, convert_function_to_tool fn = .ok td →
      td.fields.map schemaKey =
        (fn.params.filter fun p => !isReceiver p.name).map Param.name) ∧
    (∀ fn : PyFunction, truthy fn.doc = true →
      (∀ p ∈ fn.params, isReceiver p.name = false) →
      (∀ p ∈ fn.params, p.annot.isSome = true) →
      fn.docstring.params.map DocParam.arg_name = fn.params.map Param.name →
      (∀ dp ∈ fn.docstring.params, truthy dp.description = true) →
      schemaParamNames fn = some (fn.params.map Param.name)) := by
  have horder : ∀ fn td, convert_function_to_tool fn = .ok td →
      td.fields.map schemaKey =
        (fn.params.filter fun p => !isReceiver p.name).map Param.name := by
    intro fn td h
    unfold convert_function_to_tool at h
    by_cases hd : truthy fn.doc = false
    · rw [if_pos hd] at h
      exact absurd h (by simp)
    · rw [if_neg hd] at h
      rw [exceptMap_eq_ok] at h
      obtain ⟨fields, hcf, htd⟩ := h
      have hf2 := convertFields_forall2 fn.docstring.params fn.params 0 fields hcf
      have hmaps := forall2_map_eq hf2
        (fun p f hrel => (schemaKey_of_fieldRel hrel).symm)
      rw [← htd]
      exact hmaps.symm
  refine ⟨horder, ?_⟩
  intro fn hdoc hrecv hannots halign hdescs
  have hann' : ∀ p ∈ fn.params, isReceiver p.name = false → p.annot.isSome = true :=
    fun p hp _ => hannots p hp
  have haligned : AlignedFrom fn.docstring.params fn.params 0 := by
    intro j p dp hp hr hdp
    rw [Nat.zero_add] at hdp
    constructor
    · have hmap := congrArg (fun l => l.get? j) halign
      simp only [List.get?_map] at hmap
      rw [hdp, hp] at hmap
      simpa using hmap
    · exact hdescs dp (List.get?_mem hdp)
  have hok : isErr (convertFields fn.docstring.params fn.params 0) = false :=
    (convertFields_ok_iff fn.docstring.params fn.params 0 hann').mpr haligned
  rw [isErr_false_iff] at hok
  obtain ⟨fields, hcf⟩ := hok
  have hcv : convert_function_to_tool fn =
      .ok { name := pyToolName fn.name, doc := composeDoc fn.docstring,
            fields := fields } := by
    unfold convert_function_to_tool
    rw [if_neg (by simp [hdoc])]
    rw [hcf]
    rfl
  have hfilter : (fn.params.filter fun p => !isReceiver p.name) = fn.params :=
    List.filter_eq_self.mpr (fun p hp => by simp [hrecv p hp])
  have := horder fn _ hcv
  rw [hfilter] at this
  unfold schemaParamNames
  rw [hcv]
  simp only [Except.toOption, Option.map]
  rw [← this]

/-- C3 is refuted as stated on methods: a method whose docstring documents
the two real parameters in signature order (as the claim's hypotheses
require) is rejected with a name-mismatch error, because the loop indexes
the docstring by the signature position including the skipped receiver. -/
theorem method_receiver_offset_cex :
    convert_function_to_tool exMethodFn =
      .error (SchemaError.nameMismatch ("title") ("author")) := rfl

/-- C3 witness: the plain two-parameter function converts successfully and
exposes its parameters in signature order. -/
theorem param_order_matches_signature_witness :
    schemaParamNames exPlainFn = some ["title", "author"] :=
  param_order_matches_signature.2 exPlainFn (by decide) (by decide) (by decide)
    (by decide) (by decide)

/-- C4 (amended): for a function with a truthy docstring and fully
annotated non-receiver parameters, schema construction fails exactly when
some index shared by the signature and the documented parameter list has a
non-receiver parameter whose documented name mismatches or whose
documented description is empty/missing.  Documented parameters at
positions beyond the signature length are never examined.  -/
theorem doc_error_iff_misaligned (fn : PyFunction)
    (hdoc : truthy fn.doc = true)
    (hann : ∀ p ∈ fn.params, isReceiver p.name = false → p.annot.isSome = true) :
    isErr (convert_function_to_tool fn) = true ↔ docAligned fn = false := by
  have h1 : isErr (convert_function_to_tool fn) =
      isErr (convertFields fn.docstring.params fn.params 0) := by
    unfold convert_function_to_tool
    rw [if_neg (by simp [hdoc])]
    rw [isErr_map]
  rw [h1]
  have h2 := convertFields_ok_iff fn.docstring.params fn.params 0 hann
  rw [← docAligned_iff] at h2
  cases hcf : isErr (convertFields fn.docstring.params fn.params 0) <;>
    cases hda : docAligned fn <;> simp_all

/-- C4 is refuted as stated: `exExtraDocFn` documents a second parameter
`b` with an empty description, yet conversion succeeds because documented
parameters beyond the signature length are ignored. -/
theorem extra_doc_param_ignored_cex :
    convert_function_to_tool exExtraDocFn = .ok exExtraDocTd ∧
    exExtraDocFn.docstring.params.get? 1 =
      some { arg_name := "b", description := some ("") } :=
  ⟨rfl, rfl⟩

/-- C4 witness: a function whose single parameter is documented under the
wrong name is rejected. -/
theorem doc_error_iff_misaligned_witness :
    isErr (convert_function_to_tool exMisalignedFn) = true :=
  (doc_error_iff_misaligned exMisalignedFn (by decide) (by decide)).mpr (by decide)

/-- C5: a function with a falsy (absent or empty) docstring is rejected by
`convert_function_to_tool` with the docstring error, and a tool class
whose model schema has no description is rejected by
`BaseTool.tool_schema`; both fail at schema-construction time, before any
network call could be attempted, and neither is silently recovered. -/
theorem missing_docstring_errors (fn : PyFunction) (ms : ModelSchema)
    (h1 : truthy fn.doc = false) (h2 : ms.description = none) :
    convert_function_to_tool fn = .error SchemaError.noDocstring ∧
    BaseTool.tool_schema ms = .error ("Tool must have a docstring description.") := by
  constructor
  · unfold convert_function_to_tool
    rw [if_pos h1]
  · unfold BaseTool.tool_schema
    rw [h2]

/-- C5 witness: a concrete docstring-less function and a concrete
description-less model schema are both rejected. -/
theorem missing_docstring_errors_witness :
    convert_function_to_tool exNoDocFn = .error SchemaError.noDocstring ∧
    BaseTool.tool_schema exNoDescMs =
      .error ("Tool must have a docstring description.") :=
  missing_docstring_errors exNoDocFn exNoDescMs rfl rfl

end Mirascope

namespace Mirascope

/-- C6 (amended): for any generated tool, a parameter whose name collides
with the reserved `model_` namespace is exposed in the schema under its
original name while the internal field is renamed to `aliased_` + name;
resolving a tool call that supplies the argument under the original name
populates the aliased internal field; and serialization recovers the
original name under `by_alias=True`.  (The original claim also asserted
that serializing the tool's arguments yields the original name: the `args`
property calls `model_dump` without `by_alias`, which emits the internal
`aliased_` name — see the counterexample.) -/
theorem model_alias_round_trip (fn : PyFunction) (td : ToolDef) (i : Nat)
    (p : Param) (f : FieldDef)
    (hok : convert_function_to_tool fn = .ok td)
    (hp : (fn.params.filter fun q => !isReceiver q.name).get? i = some p)
    (hm : startsWithModel p.name = true)
    (hf : td.fields.get? i = some f) :
    schemaKey f = p.name ∧
    f.fieldName = "aliased_" ++ p.name ∧
    (∀ args : List (String × PyValue),
      (f.fieldName, args.lookup p.name) ∈ model_validate td.fields args) ∧
    dumpKey true f = p.name := by
  have hf2 : List.Forall₂ fieldRel
      (fn.params.filter fun q => !isReceiver q.name) td.fields := by
    unfold convert_function_to_tool at hok
    by_cases hd : truthy fn.doc = false
    · rw [if_pos hd] at hok
      exact absurd hok (by simp)
    · rw [if_neg hd] at hok
      rw [exceptMap_eq_ok] at hok
      obtain ⟨fields, hcf, htd⟩ := hok
      rw [← htd]
      exact convertFields_forall2 fn.docstring.params fn.params 0 fields hcf
  obtain ⟨f', hf', hrel⟩ := forall2_get? hf2 hp
  rw [hf] at hf'
  cases hf'
  unfold fieldRel at hrel
  rw [if_pos hm] at hrel
  obtain ⟨hfn, hal, hval, hser⟩ := hrel
  refine ⟨?_, hfn, ?_, ?_⟩
  · unfold schemaKey
    rw [hval]
    rfl
  · intro args
    have hmem : f ∈ td.fields := List.get?_mem hf
    have hin : (f.fieldName, args.lookup (validationKey f)) ∈
        td.fields.map fun g => (g.fieldName, args.lookup (validationKey g)) :=
      List.mem_map_of_mem _ hmem
    have hvk : validationKey f = p.name := by
      unfold validationKey
      rw [hval]
      rfl
    rw [hvk] at hin
    exact hin
  · unfold dumpKey
    rw [if_pos rfl, hser]
    rfl

/-- C6 is refuted on its serialization leg: the generated tool for
`exAliasFn` validates `model_title` into the aliased internal field, but
`BaseTool.args` (which calls `model_dump` without `by_alias`) emits the
internal name `aliased_model_title`, not the original parameter name. -/
theorem args_serialization_internal_name_cex :
    convert_function_to_tool exAliasFn = .ok exAliasTd ∧
    model_validate exAliasTd.fields [(("model_title" : String), ("v" : PyValue))] =
      [("aliased_model_title", some ("v"))] ∧
    BaseTool.args [(exAliasField, ("v" : PyValue))] =
      [("aliased_model_title", "v")] ∧
    ("aliased_model_title" : String) ≠ "model_title" :=
  ⟨rfl, rfl, rfl, by decide⟩

/-- C6 witness: the aliased field of `exAliasFn` is exposed under
`model_title`, is populated from a tool call carrying `model_title`, and
serializes back to `model_title` under `by_alias=True`. -/
theorem model_alias_round_trip_witness :
    schemaKey exAliasField = "model_title" ∧
    exAliasField.fieldName = "aliased_model_title" ∧
    (("aliased_model_title", some ("v")) ∈
      model_validate exAliasTd.fields [(("model_title" : String), ("v" : PyValue))]) ∧
    dumpKey true exAliasField = "model_title" := by
  have h := model_alias_round_trip exAliasFn exAliasTd 0
    { name := "model_title", annot := some ("str"), default := none }
    exAliasField rfl rfl rfl rfl
  exact ⟨h.1, h.2.1, h.2.2.1 [(("model_title" : String), ("v" : PyValue))], h.2.2.2⟩

/-- C7: the tool schema emitted by `BaseTool.tool_schema` never lists the
internal `tool_call` bookkeeping field among its properties or its
required list, and its `$defs` never contain the internal
`ChatCompletionMessageToolCall` and `Function` back-reference definitions,
for every model schema. -/
theorem tool_schema_strips_internal (ms : ModelSchema) (ts : ToolSchemaFn)
    (ps : ToolSchemaParams)
    (hok : BaseTool.tool_schema ms = .ok ts) (hps : ts.parameters = some ps) :
    ("tool_call" ∉ ps.properties.map Prod.fst) ∧
    ("tool_call" ∉ ps.required) ∧
    ("ChatCompletionMessageToolCall" ∉ ps.defs.map Prod.fst) ∧
    ("Function" ∉ ps.defs.map Prod.fst) := by
  unfold BaseTool.tool_schema at hok
  cases hdesc : ms.description with
  | none =>
    rw [hdesc] at hok
    exact absurd hok (by simp)
  | some desc =>
    rw [hdesc] at hok
    simp only at hok
    by_cases hprops : ms.properties.isEmpty
    · rw [if_pos hprops] at hok
      cases hok
      exact absurd hps (by simp)
    · rw [if_neg hprops] at hok
      cases hok
      have hps' := Option.some.inj hps.symm
      subst hps'
      refine ⟨?_, ?_, ?_, ?_⟩
      · intro hmem
        simp only [List.mem_map, List.mem_filter] at hmem
        obtain ⟨kv, ⟨_, hne⟩, hfst⟩ := hmem
        rw [hfst] at hne
        simp at hne
      · cases hreq : ms.required with
        | none => simp [hreq]
        | some req =>
          simp only [hreq]
          intro hmem
          rw [List.mem_filter] at hmem
          simp at hmem
      · cases hdefs : ms.defs with
        | none => simp [hdefs]
        | some ds =>
          simp only [hdefs]
          intro hmem
          simp only [List.mem_map, List.mem_filter] at hmem
          obtain ⟨kv, ⟨_, hne⟩, hfst⟩ := hmem
          rw [hfst] at hne
          simp at hne
      · cases hdefs : ms.defs with
        | none => simp [hdefs]
        | some ds =>
          simp only [hdefs]
          intro hmem
          simp only [List.mem_map, List.mem_filter] at hmem
          obtain ⟨kv, ⟨_, hne⟩, hfst⟩ := hmem
          rw [hfst] at hne
          simp at hne

/-- C7 witness: the schema emitted for `exToolMs` keeps the user content
and drops `tool_call` and both internal `$defs` entries. -/
theorem tool_schema_strips_internal_witness :
    ("tool_call" ∉ exToolPs.properties.map Prod.fst) ∧
    ("tool_call" ∉ exToolPs.required) ∧
    ("ChatCompletionMessageToolCall" ∉ exToolPs.defs.map Prod.fst) ∧
    ("Function" ∉ exToolPs.defs.map Prod.fst) :=
  tool_schema_strips_internal exToolMs exToolTs exToolPs rfl rfl

end Mirascope

namespace Mirascope

/-- C9: for every Anthropic streaming event, the chunk wrapper's content
equals the delta text exactly on content-block text deltas and is the
empty string on every other event (never raising), and its usage is
`None` precisely for the events that carry no usage substructure — only
message-start and message-delta events yield a non-null usage. -/
theorem chunk_content_usage_spec (e : Anthropic.MessageStreamEvent) :
    (∀ t, e = .contentBlockDelta (.textDelta t) →
      Anthropic.AnthropicCallResponseChunk.content e = t) ∧
    ((∀ t, e ≠ .contentBlockDelta (.textDelta t)) →
      Anthropic.AnthropicCallResponseChunk.content e = "") ∧
    (Anthropic.AnthropicCallResponseChunk.usage e = none ↔
      (∀ m, e ≠ .messageStart m) ∧ (∀ r u, e ≠ .messageDelta r u)) := by
  refine ⟨?_, ?_, ?_⟩
  · intro t ht
    subst ht
    rfl
  · intro h
    cases e with
    | contentBlockDelta d =>
      cases d with
      | textDelta t => exact absurd rfl (h t)
      | inputJson s => rfl
    | messageStart m => rfl
    | contentBlockStart => rfl
    | contentBlockStop => rfl
    | messageDelta r u => rfl
    | messageStop => rfl
  · cases e with
    | messageStart m =>
      constructor
      · intro h
        exact Option.noConfusion h
      · rintro ⟨h1, _⟩
        exact absurd rfl (h1 m)
    | messageDelta r u =>
      constructor
      · intro h
        exact Option.noConfusion h
      · rintro ⟨_, h2⟩
        exact absurd rfl (h2 r u)
    | contentBlockStart =>
      exact ⟨fun _ => ⟨fun m h => (nomatch h), fun r u h => (nomatch h)⟩, fun _ => rfl⟩
    | contentBlockDelta d =>
      exact ⟨fun _ => ⟨fun m h => (nomatch h), fun r u h => (nomatch h)⟩, fun _ => rfl⟩
    | contentBlockStop =>
      exact ⟨fun _ => ⟨fun m h => (nomatch h), fun r u h => (nomatch h)⟩, fun _ => rfl⟩
    | messageStop =>
      exact ⟨fun _ => ⟨fun m h => (nomatch h), fun r u h => (nomatch h)⟩, fun _ => rfl⟩

/-- C9 witness: a text delta's content is its text, and a message-stop
event carries no usage. -/
theorem chunk_content_usage_spec_witness :
    Anthropic.AnthropicCallResponseChunk.content
        (.contentBlockDelta (.textDelta ("Sure"))) = "Sure" ∧
    Anthropic.AnthropicCallResponseChunk.usage .messageStop = none :=
  ⟨(chunk_content_usage_spec _).1 ("Sure") rfl,
   (chunk_content_usage_spec _).2.2.mpr
     ⟨fun m h => (nomatch h), fun r u h => (nomatch h)⟩⟩

/-- C10: `finish_reasons` is non-null exactly on message-start events
whose message already carries a (truthy) stop reason; in particular a
terminal message-delta event that carries the stream's stop reason still
yields `None`, and a qualifying message-start yields the singleton list of
its stop reason. -/
theorem chunk_finish_reasons_only_message_start :
    (∀ e : Anthropic.MessageStreamEvent,
      Anthropic.AnthropicCallResponseChunk.finish_reasons e ≠ none ↔
        ∃ m, e = .messageStart m ∧ truthy m.stop_reason = true) ∧
    (∀ (r : String) (u : Anthropic.MessageDeltaUsage),
      Anthropic.AnthropicCallResponseChunk.finish_reasons
        (.messageDelta (some r) u) = none) ∧
    (∀ m : Anthropic.Message, truthy m.stop_reason = true →
      Anthropic.AnthropicCallResponseChunk.finish_reasons (.messageStart m) =
        some [m.stop_reason.getD ("")]) := by
  refine ⟨?_, ?_, ?_⟩
  · intro e
    cases e with
    | messageStart m =>
      unfold Anthropic.AnthropicCallResponseChunk.finish_reasons
      cases hs : truthy m.stop_reason with
      | true => simp [hs]
      | false => simp [hs]
    | messageDelta r u =>
      simp [Anthropic.AnthropicCallResponseChunk.finish_reasons]
    | contentBlockStart =>
      simp [Anthropic.AnthropicCallResponseChunk.finish_reasons]
    | contentBlockDelta d =>
      simp [Anthropic.AnthropicCallResponseChunk.finish_reasons]
    | contentBlockStop =>
      simp [Anthropic.AnthropicCallResponseChunk.finish_reasons]
    | messageStop =>
      simp [Anthropic.AnthropicCallResponseChunk.finish_reasons]
  · intro r u
    rfl
  · intro m hs
    simp [Anthropic.AnthropicCallResponseChunk.finish_reasons, hs]

/-- C10 witness: a message-start whose message carries `end_turn` yields
`["end_turn"]`. -/
theorem chunk_finish_reasons_only_message_start_witness :
    Anthropic.AnthropicCallResponseChunk.finish_reasons
        (.messageStart { id := "id", model := "claude", stop_reason := some ("end_turn"),
                         usage := { input_tokens := 1, output_tokens := 2 } }) =
      some ["end_turn"] :=
  chunk_finish_reasons_only_message_start.2.2 _ rfl

end Mirascope

namespace Mirascope

namespace Groq

/-- Folding the stream accumulator over a chunk list from any state
produces the concatenated content, the latest non-null usage and finish
reason, the collected tool calls, and the first chunk id, relative to the
starting state. -/
theorem foldl_step_fields :
    ∀ (chunks : List StreamChunk) (st : StreamState),
      (chunks.foldl step st).model = st.model ∧
      (chunks.foldl step st).finished = st.finished ∧
      (chunks.foldl step st).id = st.id.or (idOf chunks) ∧
      (chunks.foldl step st).content = st.content ++ contentOf chunks ∧
      (chunks.foldl step st).usage = (usageOf chunks).or st.usage ∧
      (chunks.foldl step st).tool_calls = st.tool_calls ++ toolCallsOf chunks ∧
      (chunks.foldl step st).finish_reason = (finishOf chunks).or st.finish_reason := by
  intro chunks
  induction chunks with
  | nil =>
    intro st
    simp [contentOf, usageOf, finishOf, toolCallsOf, idOf, Option.or_none,
      String.append_empty]
  | cons c cs ih =>
    intro st
    simp only [List.foldl_cons]
    obtain ⟨h1, h2, h3, h4, h5, h6, h7⟩ := ih (step st c)
    refine ⟨?_, ?_, ?_, ?_, ?_, ?_, ?_⟩
    · rw [h1]
      rfl
    · rw [h2]
      rfl
    · rw [h3]
      show (st.id.or (some c.id)).or (idOf cs) = st.id.or (idOf (c :: cs))
      cases st.id with
      | some v => rfl
      | none => rfl
    · rw [h4]
      show (st.content ++ c.content.getD ("")) ++ contentOf cs =
        st.content ++ contentOf (c :: cs)
      rw [String.append_assoc]
      rfl
    · rw [h5]
      show (usageOf cs).or (c.usage.or st.usage) = (usageOf (c :: cs)).or st.usage
      rw [← Option.or_assoc]
      rfl
    · rw [h6]
      show (st.tool_calls ++ c.tool_calls.getD []) ++ toolCallsOf cs =
        st.tool_calls ++ toolCallsOf (c :: cs)
      rw [List.append_assoc]
      rfl
    · rw [h7]
      show (finishOf cs).or (c.finish_reason.or st.finish_reason) =
        (finishOf (c :: cs)).or st.finish_reason
      rw [← Option.or_assoc]
      rfl

/-- Once a chunk has been pulled, the stream stays started. -/
theorem foldl_step_started :
    ∀ (cs : List StreamChunk) (st : StreamState),
      st.started = true → (cs.foldl step st).started = true := by
  intro cs
  induction cs with
  | nil =>
    intro st h
    exact h
  | cons c cs ih =>
    intro st _
    simp only [List.foldl_cons]
    exact ih (step st c) rfl

/-- The exhausted stream state carries exactly the accumulated values of
the chunk sequence. -/
theorem exhaust_spec (model : String) (chunks : List StreamChunk) :
    (exhaust model chunks).model = model ∧
    (exhaust model chunks).finished = true ∧
    (exhaust model chunks).id = idOf chunks ∧
    (exhaust model chunks).content = contentOf chunks ∧
    (exhaust model chunks).usage = usageOf chunks ∧
    (exhaust model chunks).tool_calls = toolCallsOf chunks ∧
    (exhaust model chunks).finish_reason = finishOf chunks := by
  obtain ⟨h1, h2, h3, h4, h5, h6, h7⟩ := foldl_step_fields chunks (mkStream model)
  unfold exhaust
  refine ⟨?_, rfl, ?_, ?_, ?_, ?_, ?_⟩
  · show (chunks.foldl step (mkStream model)).model = model
    rw [h1]
    rfl
  · show (chunks.foldl step (mkStream model)).id = idOf chunks
    rw [h3]
    show Option.or none (idOf chunks) = idOf chunks
    rw [Option.none_or]
  · show (chunks.foldl step (mkStream model)).content = contentOf chunks
    rw [h4]
    show ("" : String) ++ contentOf chunks = contentOf chunks
    rw [String.empty_append]
  · show (chunks.foldl step (mkStream model)).usage = usageOf chunks
    rw [h5]
    show (usageOf chunks).or none = usageOf chunks
    rw [Option.or_none]
  · show (chunks.foldl step (mkStream model)).tool_calls = toolCallsOf chunks
    rw [h6]
    show ([] : List ToolCall) ++ toolCallsOf chunks = toolCallsOf chunks
    rw [List.nil_append]
  · show (chunks.foldl step (mkStream model)).finish_reason = finishOf chunks
    rw [h7]
    show (finishOf chunks).or none = finishOf chunks
    rw [Option.or_none]

/-- A stream over a non-empty chunk sequence has started once exhausted. -/
theorem exhaust_started (model : String) (chunks : List StreamChunk)
    (h : chunks ≠ []) : (exhaust model chunks).started = true := by
  unfold exhaust
  show (chunks.foldl step (mkStream model)).started = true
  cases chunks with
  | nil => exact absurd rfl h
  | cons c cs =>
    simp only [List.foldl_cons]
    exact foldl_step_started cs (step (mkStream model) c) rfl

/-- C1: on a fully consumed non-empty stream, `construct_call_response`
succeeds and returns exactly the equivalent non-streamed raw response
carrying the accumulated content, finish reason, usage and tool calls;
consequently the resulting `CallResponse` is field-for-field equal
(provider, content, finish_reasons, model, id, usage, input_tokens,
output_tokens, cost, message_param) to one built directly on that
equivalent response.  (The stream and response wrappers are modelled from
the spec; their code is not under `src/`.) -/
theorem construct_call_response_refines_nonstreamed
    (table : List (String × ℚ × ℚ)) (model : String)
    (chunks : List StreamChunk) (h : chunks ≠ []) :
    (exhaust model chunks).construct_call_response =
      .ok (equivalentNonStreamedResponse model chunks) ∧
    (∀ cc, (exhaust model chunks).construct_call_response = .ok cc →
      CallResponse.fields table cc =
        CallResponse.fields table (equivalentNonStreamedResponse model chunks)) := by
  obtain ⟨h1, h2, h3, h4, h5, h6, h7⟩ := exhaust_spec model chunks
  have hstart := exhaust_started model chunks h
  have hmain : (exhaust model chunks).construct_call_response =
      .ok (equivalentNonStreamedResponse model chunks) := by
    unfold StreamState.construct_call_response equivalentNonStreamedResponse
    rw [if_pos hstart]
    rw [h1, h3, h4, h5, h6, h7]
  refine ⟨hmain, ?_⟩
  intro cc hcc
  rw [hmain] at hcc
  cases hcc
  rfl

/-- C1 witness: the two-chunk stream of the Groq test. -/
theorem construct_call_response_refines_nonstreamed_witness :
    (exhaust ("llama3-70b-8192") exChunks).construct_call_response =
      .ok (equivalentNonStreamedResponse ("llama3-70b-8192") exChunks) :=
  (construct_call_response_refines_nonstreamed groqPriceTable ("llama3-70b-8192")
    exChunks (by decide)).1

/-- C2: before any chunk has been pulled, a stream's cost and
message_param are `None`; after the chunk sequence is exhausted, cost is
exactly the price-table cost of the accumulated usage and message_param is
exactly the assistant-turn message built from the accumulated content and
tool calls.  (The stream wrapper is modelled from the spec; its code is
not under `src/`.) -/
theorem stream_cost_message_param_lifecycle
    (table : List (String × ℚ × ℚ)) (model : String) (chunks : List StreamChunk) :
    StreamState.cost table (mkStream model) = none ∧
    StreamState.message_param (mkStream model) = none ∧
    StreamState.cost table (exhaust model chunks) =
      calculate_cost table (usageOf chunks) model ∧
    StreamState.message_param (exhaust model chunks) =
      some { role := "assistant", content := some (contentOf chunks),
             tool_calls := if (toolCallsOf chunks).isEmpty then none
                           else some (toolCallsOf chunks) } := by
  obtain ⟨h1, h2, h3, h4, h5, h6, h7⟩ := exhaust_spec model chunks
  refine ⟨rfl, rfl, ?_, ?_⟩
  · unfold StreamState.cost
    rw [if_pos h2, h5, h1]
  · unfold StreamState.message_param
    rw [if_pos h2, h4, h6]

/-- C8: the cost computation is total and returns `None` (rather than
raising) whenever usage is missing or the model has no price-table entry.
(The cost calculator is modelled from the spec; its code is not under
`src/`.) -/
theorem cost_none_on_unknown_model_or_missing_usage
    (table : List (String × ℚ × ℚ)) (usage : Option CompletionUsage) (model : String)
    (h : usage = none ∨ table.lookup model = none) :
    calculate_cost table usage model = none := by
  rcases h with h | h
  · rw [h]
    rfl
  · cases usage with
    | none => rfl
    | some u =>
      simp only [calculate_cost]
      rw [h]

/-- C8 witness: a priced usage against a model that is absent from the
price table yields `None`. -/
theorem cost_none_on_unknown_model_or_missing_usage_witness :
    calculate_cost groqPriceTable
        (some { prompt_tokens := 1, completion_tokens := 1 }) ("mixtral-8x7b") = none :=
  cost_none_on_unknown_model_or_missing_usage groqPriceTable _ _ (Or.inr (by decide))

end Groq

end Mirascope

namespace Mirascope

example :
    Groq.StreamState.cost Groq.groqPriceTable
        (Groq.exhaust ("llama3-70b-8192") exChunks) =
      some ((138 : ℚ) / 100000000) := by
  norm_num [Groq.StreamState.cost, Groq.exhaust, Groq.mkStream, Groq.step,
    exChunks, Groq.calculate_cost, Groq.groqPriceTable, List.lookup,
    Option.or]

example :
    Groq.CallResponse.content
        (Groq.equivalentNonStreamedResponse ("llama3-70b-8192") exChunks) =
      "content" := rfl

example :
    Groq.CallResponse.finish_reasons
        (Groq.equivalentNonStreamedResponse ("llama3-70b-8192") exChunks) =
      some ["stop"] := rfl

example :
    Groq.StreamState.message_param (Groq.exhaust ("llama3-70b-8192") exChunks) =
      some { role := "assistant", content := some ("content"),
             tool_calls := some (Groq.toolCallsOf exChunks) } := rfl

example :
    convert_function_to_tool
      { name := "recommend_book", doc := some ("Recommend a book."),
        docstring := { short_description := some ("Recommend a book."),
                       long_description := none,
                       params := [{ arg_name := "genre", description := some ("The genre.") }] },
        params := [{ name := "genre", annot := some ("str"), default := none }] } =
    .ok { name := "RecommendBook", doc := "Recommend a book.",
          fields := [{ fieldName := "genre", annot := "str", default := none,
                       description := some ("The genre."), alias_ := none,
                       validation_alias_ := none, serialization_alias_ := none }] } := by
  rfl

end Mirascope
